import Mathlib

/-!
Shallow embedding of the shape data model and geometry engine of the
vector-shape editor (src/src/model/{shape,line,rectangle,circle}.rs and the
storage in shape.rs).

Conventions of the embedding:

* Rust `f64` values are modelled as `ℚ` with exact real-number semantics.
  Every comparison the source makes through `f64::sqrt` is transcribed by the
  exact real equivalence `Real.sqrt a ≤ b ↔ 0 ≤ b ∧ a ≤ b ^ 2` (for `0 ≤ a`),
  so no square roots appear; the one place where a square root is *stored*
  (`Circle::resize`) is modelled as a relation on states (`Circle.resizeSpec`).
* A Rust panic (any `.unwrap()` on `None`/`Err`, an out-of-bounds index, or an
  explicit panic) is modelled by `Option.none` / a `true` "panicked" flag:
  the process aborts, there is no resulting value.
* `serde_json` documents are modelled structurally: a per-shape document is an
  association list from string keys to values (`Doc`).  `serde_json::Map` is a
  `BTreeMap` (distinct keys, key lookup), so an association list with distinct
  keys is lookup-equivalent to it.
* The Rust field `end` is called `endPt` here (`end` is a Lean keyword).
-/

namespace GK

/-- Lifecycle state of a shape (Rust enum `ShapeState` in shape.rs). -/
inductive ShapeState
  | New
  | Drawing
  | Complete
deriving DecidableEq

/-- Display form of a state (Rust `impl fmt::Display for ShapeState`). -/
def ShapeState.toStr : ShapeState → String
  | .New => "New"
  | .Drawing => "Drawing"
  | .Complete => "Complete"

/-- Parsing of a state string (Rust `impl FromStr for ShapeState`); `none`
models the `Err` case ("Invalid shape state"). -/
def ShapeState.fromStr? (s : String) : Option ShapeState :=
  if s = "New" then some ShapeState.New
  else if s = "Drawing" then some ShapeState.Drawing
  else if s = "Complete" then some ShapeState.Complete
  else none

/-- Kind of a shape (Rust enum `ShapeType` in shape.rs). -/
inductive ShapeType
  | Line
  | Rectangle
  | Circle
deriving DecidableEq

/-- A JSON value as used by the codec: numbers, strings, and numeric arrays
(the only array the codec touches is the circle's 2-element `origin`). -/
inductive JsonVal
  | num (q : ℚ)
  | str (s : String)
  | arr (xs : List ℚ)
deriving DecidableEq

/-- Reading a JSON value as a number (serde `as_f64`). -/
def JsonVal.asNum? : JsonVal → Option ℚ
  | .num q => some q
  | _ => none

/-- A per-shape JSON document: association list with distinct keys, modelling
the `serde_json::Map` object. -/
def Doc : Type := List (String × JsonVal)

instance : DecidableEq Doc := by
  unfold Doc
  infer_instance

/-- Key lookup in a document (`map.get(key)` / indexing). -/
def Doc.get : Doc → String → Option JsonVal
  | [], _ => none
  | (k, v) :: rest, key => if k = key then some v else Doc.get rest key

/-- Property-reflection keys (shape.rs / line.rs / rectangle.rs / circle.rs). -/
def ORIGIN_X_KEY : String := "Origin x"

def ORIGIN_Y_KEY : String := "Origin y"

def END_X_KEY : String := "End x"

def END_Y_KEY : String := "End y"

def WIDTH_KEY : String := "Width"

def HEIGHT_KEY : String := "Height"

def RADIUS_KEY : String := "Radius"

/-- The fixed key set of `Line::set_prop`/`get_props`. -/
def lineKeys : List String := [ORIGIN_X_KEY, ORIGIN_Y_KEY, END_X_KEY, END_Y_KEY]

/-- The fixed key set of `Rectangle::set_prop`/`get_props`. -/
def rectangleKeys : List String := [ORIGIN_X_KEY, ORIGIN_Y_KEY, WIDTH_KEY, HEIGHT_KEY]

/-- The fixed key set of `Circle::set_prop`/`get_props`. -/
def circleKeys : List String := [ORIGIN_X_KEY, ORIGIN_Y_KEY, RADIUS_KEY]

/-- State of a `Line` (line.rs): optional origin, optional end point, state. -/
structure Line where
  origin : Option (ℚ × ℚ)
  endPt : Option (ℚ × ℚ)
  state : ShapeState
deriving DecidableEq

/-- `Line::new()`. -/
def Line.new : Line := ⟨none, none, ShapeState.New⟩

/-- State of a `Rectangle` (rectangle.rs): optional origin, signed width and
height, state. -/
structure Rectangle where
  origin : Option (ℚ × ℚ)
  width : ℚ
  height : ℚ
  state : ShapeState
deriving DecidableEq

/-- `Rectangle::new()`. -/
def Rectangle.new : Rectangle := ⟨none, 0, 0, ShapeState.New⟩

/-- State of a `Circle` (circle.rs): optional origin, radius, state. -/
structure Circle where
  origin : Option (ℚ × ℚ)
  radius : ℚ
  state : ShapeState
deriving DecidableEq

/-- `Circle::new()`. -/
def Circle.new : Circle := ⟨none, 0, ShapeState.New⟩

/-- `Line::is_drawable`: state Drawing or Complete, and end point present. -/
def Line.isDrawable (l : Line) : Bool :=
  decide ((l.state = ShapeState.Complete ∨ l.state = ShapeState.Drawing) ∧ l.endPt.isSome)

/-- `Rectangle::is_drawable`: state Drawing or Complete and nonzero extent. -/
def Rectangle.isDrawable (r : Rectangle) : Bool :=
  decide ((r.state = ShapeState.Complete ∨ r.state = ShapeState.Drawing) ∧
    r.width ≠ 0 ∧ r.height ≠ 0)

/-- `Circle::is_drawable`: state Drawing or Complete and nonzero radius. -/
def Circle.isDrawable (c : Circle) : Bool :=
  decide ((c.state = ShapeState.Complete ∨ c.state = ShapeState.Drawing) ∧ c.radius ≠ 0)

/-- `Line::set_state` (the trait's explicit state override). -/
def Line.setState (l : Line) (st : ShapeState) : Line := { l with state := st }

/-- `Line::set_end`: stores the end point verbatim. -/
def Line.setEnd (l : Line) (x y : ℚ) : Line := { l with endPt := some (x, y) }

/-- `Line::contains` (hit test).  The source computes
`dist = sqrt(dx*dx+dy*dy)` and divides by `dist*dist`, which over the reals is
exactly `dx*dx+dy*dy`; the final test `d <= 5.0` with
`d = sqrt((x-px)^2+(y-py)^2)` is over the reals exactly
`(x-px)^2+(y-py)^2 ≤ 25`.  When `dist = 0` the source's float arithmetic makes
`t` NaN, every NaN comparison is false, and the function returns `false`; the
`dist2 = 0` branch transcribes that.  A `none` result models the panic of
`self.origin.unwrap()` / `self.end.unwrap()` on an absent point. -/
def Line.contains (l : Line) (x y : ℚ) : Option Bool :=
  if l.isDrawable = false then some false
  else
    match l.origin, l.endPt with
    | some (ox, oy), some (ex, ey) =>
      let dx := ex - ox
      let dy := ey - oy
      let dist2 := dx * dx + dy * dy
      if dist2 = 0 then some false
      else
        let t := ((x - ox) * dx + (y - oy) * dy) / dist2
        if t < 0 ∨ t > 1 then some false
        else
          let px := ox + t * dx
          let py := oy + t * dy
          some (decide ((x - px) * (x - px) + (y - py) * (y - py) ≤ 25))
    | _, _ => none

/-- `Rectangle::contains` (hit test on the normalized bounds). -/
def Rectangle.contains (r : Rectangle) (x y : ℚ) : Option Bool :=
  if r.isDrawable = false then some false
  else
    match r.origin with
    | none => none
    | some (ox, oy) =>
      let ex := ox + r.width
      let ey := oy + r.height
      let x1 := if ex > ox then ox else ex
      let x2 := if ex > ox then ex else ox
      let y1 := if ey > oy then oy else ey
      let y2 := if ey > oy then ey else oy
      some (decide (x ≥ x1 ∧ x ≤ x2 ∧ y ≥ y1 ∧ y ≤ y2))

/-- `Circle::contains`: `sqrt((ox-x)^2+(oy-y)^2) <= radius`, which over the
reals is exactly `0 ≤ radius ∧ (ox-x)^2+(oy-y)^2 ≤ radius^2`.  Note the
source checks only that the origin is present — not `is_drawable`. -/
def Circle.contains (c : Circle) (x y : ℚ) : Bool :=
  match c.origin with
  | none => false
  | some (ox, oy) =>
    decide (0 ≤ c.radius ∧ (ox - x) * (ox - x) + (oy - y) * (oy - y) ≤ c.radius * c.radius)

/-- `Line::set_prop`.  The `v` argument stands for the result of
`value.parse::<f64>()`: `some q` on success, `none` on parse failure.  A
`none` result models the panic of `.parse().unwrap()`. -/
def Line.setProp (l : Line) (key : String) (v : Option ℚ) : Option Line :=
  if key = ORIGIN_X_KEY then
    match v, l.origin with
    | none, _ => none
    | some q, some (_, y) => some { l with origin := some (q, y) }
    | some q, none => some { l with origin := some (q, 0) }
  else if key = ORIGIN_Y_KEY then
    match v, l.origin with
    | none, _ => none
    | some q, some (x, _) => some { l with origin := some (x, q) }
    | some q, none => some { l with origin := some (0, q) }
  else if key = END_X_KEY then
    match v, l.endPt with
    | none, _ => none
    | some q, some (_, y) => some { l with endPt := some (q, y) }
    | some q, none => some { l with endPt := some (q, 0) }
  else if key = END_Y_KEY then
    match v, l.endPt with
    | none, _ => none
    | some q, some (x, _) => some { l with endPt := some (x, q) }
    | some q, none => some { l with endPt := some (0, q) }
  else some l

/-- `Rectangle::set_prop` (same conventions as `Line.setProp`). -/
def Rectangle.setProp (r : Rectangle) (key : String) (v : Option ℚ) : Option Rectangle :=
  if key = ORIGIN_X_KEY then
    match v, r.origin with
    | none, _ => none
    | some q, some (_, oy) => some { r with origin := some (q, oy) }
    | some q, none => some { r with origin := some (q, 0) }
  else if key = ORIGIN_Y_KEY then
    match v, r.origin with
    | none, _ => none
    | some q, some (ox, _) => some { r with origin := some (ox, q) }
    | some q, none => some { r with origin := some (0, q) }
  else if key = WIDTH_KEY then
    match v with
    | none => none
    | some q => some { r with width := q }
  else if key = HEIGHT_KEY then
    match v with
    | none => none
    | some q => some { r with height := q }
  else some r

/-- `Circle::set_prop` (same conventions as `Line.setProp`). -/
def Circle.setProp (c : Circle) (key : String) (v : Option ℚ) : Option Circle :=
  if key = ORIGIN_X_KEY then
    match v, c.origin with
    | none, _ => none
    | some q, some origin => some { c with origin := some (q, origin.2) }
    | some q, none => some { c with origin := some (q, 0) }
  else if key = ORIGIN_Y_KEY then
    match v, c.origin with
    | none, _ => none
    | some q, some origin => some { c with origin := some (origin.1, q) }
    | some q, none => some { c with origin := some (0, q) }
  else if key = RADIUS_KEY then
    match v with
    | none => none
    | some q => some { c with radius := q }
  else some c

/-- `Circle::resize` as a relation on circle states.  The source sets
`radius = sqrt(nx^2 + ny^2)` with `nx = (ox - anchor.0) + change.0`,
`ny = (oy - anchor.1) + change.1`; the stored square root is characterized by
`0 ≤ radius ∧ radius^2 = nx^2 + ny^2`.  Origin and state are untouched; with
no origin the call is a no-op. -/
def Circle.resizeSpec (c : Circle) (change anchor : ℚ × ℚ) (c' : Circle) : Prop :=
  match c.origin with
  | none => c' = c
  | some (ox, oy) =>
    c'.origin = c.origin ∧ c'.state = c.state ∧ 0 ≤ c'.radius ∧
      c'.radius ^ 2 = (ox - anchor.1 + change.1) ^ 2 + (oy - anchor.2 + change.2) ^ 2

/-- `Line::get_json`: the per-shape document of a line.  `serde_json`'s map
sorts keys; key order in the association list is irrelevant to lookup. -/
def Line.getJson (l : Line) : Doc :=
  [("type", JsonVal.str "line"), ("state", JsonVal.str l.state.toStr)] ++
    (match l.origin with
     | some (ox, oy) => [("origin_x", JsonVal.num ox), ("origin_y", JsonVal.num oy)]
     | none => []) ++
    (match l.endPt with
     | some (ex, ey) => [("end_x", JsonVal.num ex), ("end_y", JsonVal.num ey)]
     | none => [])

/-- `Rectangle::get_json`. -/
def Rectangle.getJson (r : Rectangle) : Doc :=
  [("type", JsonVal.str "rectangle"), ("state", JsonVal.str r.state.toStr)] ++
    (match r.origin with
     | some (ox, oy) => [("origin_x", JsonVal.num ox), ("origin_y", JsonVal.num oy)]
     | none => []) ++
    [("width", JsonVal.num r.width), ("height", JsonVal.num r.height)]

/-- `Circle::get_json`.  The source unconditionally calls
`self.origin.unwrap()`, so with no origin the call panics (`none`). -/
def Circle.getJson (c : Circle) : Option Doc :=
  match c.origin with
  | none => none
  | some (ox, oy) =>
    some [("type", JsonVal.str "circle"), ("state", JsonVal.str c.state.toStr),
      ("origin", JsonVal.arr [ox, oy]), ("radius", JsonVal.num c.radius)]

/-- `Line::from_json`: origin set only when both `origin_x` and `origin_y`
are numbers, likewise the end point; an unrecognized `state` string panics
(`ShapeState::from_str(...).unwrap()`). -/
def Line.fromJson (l : Line) (d : Doc) : Option Line :=
  let l1 :=
    match d.get "origin_x", d.get "origin_y" with
    | some (JsonVal.num ox), some (JsonVal.num oy) => { l with origin := some (ox, oy) }
    | _, _ => l
  let l2 :=
    match d.get "end_x", d.get "end_y" with
    | some (JsonVal.num ex), some (JsonVal.num ey) => { l1 with endPt := some (ex, ey) }
    | _, _ => l1
  match d.get "state" with
  | some (JsonVal.str s) =>
    match ShapeState.fromStr? s with
    | some st => some { l2 with state := st }
    | none => none
  | _ => some l2

/-- `Rectangle::from_json` (the source reads `state` first, then origin,
width, height). -/
def Rectangle.fromJson (r : Rectangle) (d : Doc) : Option Rectangle :=
  match
    (match d.get "state" with
     | some (JsonVal.str s) => (ShapeState.fromStr? s).map (fun st => { r with state := st })
     | _ => some r) with
  | none => none
  | some r1 =>
    let r2 :=
      match d.get "origin_x", d.get "origin_y" with
      | some (JsonVal.num ox), some (JsonVal.num oy) => { r1 with origin := some (ox, oy) }
      | _, _ => r1
    let r3 :=
      match d.get "width" with
      | some (JsonVal.num w) => { r2 with width := w }
      | _ => r2
    let r4 :=
      match d.get "height" with
      | some (JsonVal.num h) => { r3 with height := h }
      | _ => r3
    some r4

/-- `Circle::from_json`: the indexing `origin[0]` / `origin[1]` panics when
the array is too short; a non-array `origin` or non-number `radius` is
silently skipped; an unrecognized `state` string panics. -/
def Circle.fromJson (c : Circle) (d : Doc) : Option Circle :=
  match
    (match d.get "origin" with
     | some (JsonVal.arr a) =>
       match a.get? 0, a.get? 1 with
       | some ox, some oy => some { c with origin := some (ox, oy) }
       | _, _ => none
     | _ => some c) with
  | none => none
  | some c1 =>
    let c2 :=
      match d.get "radius" with
      | some (JsonVal.num rr) => { c1 with radius := rr }
      | _ => c1
    match d.get "state" with
    | some (JsonVal.str s) =>
      match ShapeState.fromStr? s with
      | some st => some { c2 with state := st }
      | none => none
    | _ => some c2

/-- A stored shape: one variant plus its state (the boxed `dyn Shape`). -/
inductive AnyShape
  | line (l : Line)
  | rectangle (r : Rectangle)
  | circle (c : Circle)
deriving DecidableEq

/-- `Shape::get_type` of a stored shape. -/
def AnyShape.shapeType : AnyShape → ShapeType
  | .line _ => ShapeType.Line
  | .rectangle _ => ShapeType.Rectangle
  | .circle _ => ShapeType.Circle

/-- `ShapeStorage::create_helper`: a fresh shape of the given kind. -/
def AnyShape.new : ShapeType → AnyShape
  | ShapeType.Line => .line Line.new
  | ShapeType.Rectangle => .rectangle Rectangle.new
  | ShapeType.Circle => .circle Circle.new

/-- `Shape::get_state` of a stored shape. -/
def AnyShape.getState : AnyShape → ShapeState
  | .line l => l.state
  | .rectangle r => r.state
  | .circle c => c.state

/-- `Shape::set_state` of a stored shape. -/
def AnyShape.withState : AnyShape → ShapeState → AnyShape
  | .line l, st => .line { l with state := st }
  | .rectangle r, st => .rectangle { r with state := st }
  | .circle c, st => .circle { c with state := st }

/-- `Shape::get_origin` of a stored shape. -/
def AnyShape.getOrigin : AnyShape → Option (ℚ × ℚ)
  | .line l => l.origin
  | .rectangle r => r.origin
  | .circle c => c.origin

/-- `Shape::get_end` of a stored shape (rectangle: origin plus extent;
circle: origin shifted by the radius along x). -/
def AnyShape.getEnd : AnyShape → Option (ℚ × ℚ)
  | .line l => l.endPt
  | .rectangle r =>
    match r.origin with
    | none => none
    | some (ox, oy) => some (ox + r.width, oy + r.height)
  | .circle c =>
    match c.origin with
    | none => none
    | some (ox, oy) => some (ox + c.radius, oy)

/-- `Shape::contains` of a stored shape. -/
def AnyShape.contains : AnyShape → ℚ → ℚ → Option Bool
  | .line l, x, y => l.contains x y
  | .rectangle r, x, y => r.contains x y
  | .circle c, x, y => some (c.contains x y)

/-- `Shape::get_json` of a stored shape. -/
def AnyShape.getJson : AnyShape → Option Doc
  | .line l => some l.getJson
  | .rectangle r => some r.getJson
  | .circle c => c.getJson

/-- `Shape::from_json` of a stored shape. -/
def AnyShape.fromJson : AnyShape → Doc → Option AnyShape
  | .line l, d => (l.fromJson d).map AnyShape.line
  | .rectangle r, d => (r.fromJson d).map AnyShape.rectangle
  | .circle c, d => (c.fromJson d).map AnyShape.circle

/-- `ShapeStorage` (shape.rs): the shape sequence and the three cursors. -/
structure ShapeStorage where
  shapes : List AnyShape
  currentShapeIdx : Nat
  highlightedShapeIdx : Option Nat
  selectedShapeIdx : Option Nat
deriving DecidableEq

/-- `ShapeStorage::new()`. -/
def ShapeStorage.init : ShapeStorage := ⟨[], 0, none, none⟩

/-- `ShapeStorage::create_shape`: increments the current index, pushes a
fresh shape, and returns (storage, index of the returned `&mut` handle).
`none` models the panic of `self.shapes[self.current_shape_idx]` were the
incremented index out of bounds. -/
def ShapeStorage.createShape (s : ShapeStorage) (t : ShapeType) :
    Option (ShapeStorage × Nat) :=
  let idx := s.currentShapeIdx + 1
  let s' := { s with currentShapeIdx := idx, shapes := s.shapes ++ [AnyShape.new t] }
  match s'.shapes.get? idx with
  | some _ => some (s', idx)
  | none => none

/-- `ShapeStorage::get_or_create_shape`.  Returns the updated storage and the
index of the shape the returned `&mut` handle points at; `none` models an
out-of-bounds indexing panic. -/
def ShapeStorage.getOrCreateShape (s : ShapeStorage) (t : ShapeType) :
    Option (ShapeStorage × Nat) :=
  if s.shapes.isEmpty then
    let s' := { s with shapes := s.shapes ++ [AnyShape.new t] }
    match s'.shapes.get? s.currentShapeIdx with
    | some _ => some (s', s.currentShapeIdx)
    | none => none
  else
    match s.shapes.get? s.currentShapeIdx with
    | none => none
    | some sh =>
      if sh.shapeType ≠ t then s.createShape t
      else
        match sh.getState with
        | ShapeState.Complete => s.createShape t
        | _ => some ({ s with selectedShapeIdx := some s.currentShapeIdx }, s.currentShapeIdx)

/-- `ShapeStorage::new_shape`: always appends; current and selected go to the
new last index, highlighted is cleared. -/
def ShapeStorage.newShape (s : ShapeStorage) (t : ShapeType) : ShapeStorage :=
  let shapes := s.shapes ++ [AnyShape.new t]
  { shapes := shapes, currentShapeIdx := shapes.length - 1,
    selectedShapeIdx := some (shapes.length - 1), highlightedShapeIdx := none }

/-- `ShapeStorage::clear`. -/
def ShapeStorage.clear (_ : ShapeStorage) : ShapeStorage :=
  { shapes := [], currentShapeIdx := 0, highlightedShapeIdx := none, selectedShapeIdx := none }

/-- `ShapeStorage::submit_shape`: promotes the selected shape to Complete
when both its origin and end-equivalent point are defined; no-op otherwise.
`none` models the panic of `self.shapes[idx]` on an invalid index. -/
def ShapeStorage.submitShape (s : ShapeStorage) : Option ShapeStorage :=
  match s.selectedShapeIdx with
  | none => some s
  | some idx =>
    match s.shapes.get? idx with
    | none => none
    | some sh =>
      if sh.getEnd.isSome && sh.getOrigin.isSome then
        some { s with shapes := s.shapes.set idx (sh.withState ShapeState.Complete) }
      else some s

/-- The linear first-match scan shared by `intersect_and_highlight` and
`intersect_and_select`; `i` is the index of the head of the remaining list.
Outer `none`: a shape's `contains` panicked. -/
def findContainsFrom : List AnyShape → ℚ → ℚ → Nat → Option (Option Nat)
  | [], _, _, _ => some none
  | sh :: rest, x, y, i =>
    match sh.contains x y with
    | none => none
    | some true => some (some i)
    | some false => findContainsFrom rest x y (i + 1)

/-- `ShapeStorage::intersect_and_highlight`: first match in insertion order
sets the highlighted index; no match clears it. -/
def ShapeStorage.intersectAndHighlight (s : ShapeStorage) (x y : ℚ) :
    Option (ShapeStorage × Option Nat) :=
  match findContainsFrom s.shapes x y 0 with
  | none => none
  | some none => some ({ s with highlightedShapeIdx := none }, none)
  | some (some i) => some ({ s with highlightedShapeIdx := some i }, some i)

/-- `ShapeStorage::intersect_and_select`. -/
def ShapeStorage.intersectAndSelect (s : ShapeStorage) (x y : ℚ) :
    Option (ShapeStorage × Option Nat) :=
  match findContainsFrom s.shapes x y 0 with
  | none => none
  | some none => some ({ s with selectedShapeIdx := none }, none)
  | some (some i) => some ({ s with selectedShapeIdx := some i }, some i)

/-- `ShapeStorage::get_highlighted`.  Outer `none` models the panic of
`self.shapes[idx]` on an out-of-range stored index. -/
def ShapeStorage.getHighlighted (s : ShapeStorage) : Option (Option AnyShape) :=
  match s.highlightedShapeIdx with
  | none => some none
  | some idx =>
    match s.shapes.get? idx with
    | some sh => some (some sh)
    | none => none

/-- `ShapeStorage::get_selected` (same conventions). -/
def ShapeStorage.getSelected (s : ShapeStorage) : Option (Option AnyShape) :=
  match s.selectedShapeIdx with
  | none => some none
  | some idx =>
    match s.shapes.get? idx with
    | some sh => some (some sh)
    | none => none

/-- `ShapeStorage::get_current_mut`: absent on an empty sequence, else the
shape at the current index (panic if that index were out of range). -/
def ShapeStorage.getCurrent (s : ShapeStorage) : Option (Option AnyShape) :=
  if s.shapes.isEmpty then some none
  else
    match s.shapes.get? s.currentShapeIdx with
    | some sh => some (some sh)
    | none => none

/-- Recognition of the `type` field in `deserialize_from_json`. -/
def shapeTypeFromStr? (s : String) : Option ShapeType :=
  if s = "line" then some ShapeType.Line
  else if s = "rectangle" then some ShapeType.Rectangle
  else if s = "circle" then some ShapeType.Circle
  else none

/-- `ShapeStorage::deserialize_from_json`, on the already-parsed array of
per-shape documents.  Each decoded shape is pushed immediately; the returned
flag is `true` when the loop panicked (unknown `type` string — the explicit
`panic!` —, a non-string `type` field, or a panic inside `from_json`), in
which case the process aborts with the pushes made so far already applied. -/
def ShapeStorage.deserializeFromJson (s : ShapeStorage) : List Doc → ShapeStorage × Bool
  | [] => (s, false)
  | d :: rest =>
    match d.get "type" with
    | some (JsonVal.str tstr) =>
      match shapeTypeFromStr? tstr with
      | some ty =>
        match (AnyShape.new ty).fromJson d with
        | some sh =>
          ShapeStorage.deserializeFromJson { s with shapes := s.shapes ++ [sh] } rest
        | none => (s, true)
      | none => (s, true)
    | _ => (s, true)

/-- `ShapeStorage::serialize_to_json` at the character level, on the list of
per-shape document strings: push `[`, then each document followed by a comma,
pop the last character, push `]`. -/
def serializeDocsChars (docs : List (List Char)) : List Char :=
  ((docs.foldl (fun acc d => acc ++ d ++ [',']) ['[']).dropLast) ++ [']']

/-- `ShapeStorage::serialize_to_json` of a storage, given an encoder
producing each shape's document string (the exact rendering of numbers is
irrelevant to the claims about the array structure). -/
def ShapeStorage.serializeChars (s : ShapeStorage) (enc : AnyShape → List Char) : List Char :=
  serializeDocsChars (s.shapes.map enc)

/-- Specification-side rendering, following the spec's words ("a JSON array
of per-shape documents, insertion order preserved"): the documents joined by
commas.  Used only to compare `serializeDocsChars` against the spec. -/
def specJoinComma : List (List Char) → List Char
  | [] => []
  | [d] => d
  | d :: rest => d ++ [','] ++ specJoinComma rest

/-- Specification-side rendering of the collection document: the comma-joined
per-shape documents between one `[` and one `]`. -/
def specCollectionDoc (docs : List (List Char)) : List Char :=
  ['['] ++ specJoinComma docs ++ [']']

/-- The public collection operations of claim C8. -/
inductive StorageOp
  | getOrCreate (t : ShapeType)
  | newShape (t : ShapeType)
  | submitShape
  | intersectHighlight (x y : ℚ)
  | intersectSelect (x y : ℚ)
  | clear
  | serializeAll
  | deserializeAll (docs : List Doc)

/-- One public collection operation as a state transition; `none` models a
panic (the process aborts).  `serializeAll` reads every shape's document and
leaves the state unchanged; `deserializeAll` aborts when its loop panicked. -/
def applyOp (s : ShapeStorage) : StorageOp → Option ShapeStorage
  | .getOrCreate t => (s.getOrCreateShape t).map Prod.fst
  | .newShape t => some (s.newShape t)
  | .submitShape => s.submitShape
  | .intersectHighlight x y => (s.intersectAndHighlight x y).map Prod.fst
  | .intersectSelect x y => (s.intersectAndSelect x y).map Prod.fst
  | .clear => some s.clear
  | .serializeAll => if s.shapes.all (fun sh => sh.getJson.isSome) then some s else none
  | .deserializeAll docs =>
    match s.deserializeFromJson docs with
    | (s', false) => some s'
    | (_, true) => none

/-- Run a sequence of public operations from a given storage. -/
def runOpsFrom (s : ShapeStorage) : List StorageOp → Option ShapeStorage
  | [] => some s
  | op :: rest =>
    match applyOp s op with
    | none => none
    | some s' => runOpsFrom s' rest

/-- Run a sequence of public operations from the initial (empty) storage. -/
def runOps (ops : List StorageOp) : Option ShapeStorage :=
  runOpsFrom ShapeStorage.init ops

/-- The cursor invariant of the storage: both optional indices reference
positions strictly below the sequence length, and the current index is 0 on
an empty sequence and in range otherwise. -/
def storageInv (s : ShapeStorage) : Prop :=
  (∀ i, s.highlightedShapeIdx = some i → i < s.shapes.length) ∧
  (∀ i, s.selectedShapeIdx = some i → i < s.shapes.length) ∧
  (s.shapes.length = 0 → s.currentShapeIdx = 0) ∧
  (0 < s.shapes.length → s.currentShapeIdx < s.shapes.length)

/-- A circle shape as decoded from `circleDocA` below. -/
def circleShapeA : AnyShape := AnyShape.circle ⟨some (0, 0), 0, ShapeState.New⟩

/-- A well-formed circle document, as the codec itself would emit it. -/
def circleDocA : Doc :=
  [("type", JsonVal.str "circle"), ("state", JsonVal.str "New"),
   ("origin", JsonVal.arr [0, 0]), ("radius", JsonVal.num 0)]

/-- A document whose `type` is not one of line/rectangle/circle. -/
def triangleDoc : Doc := [("type", JsonVal.str "triangle")]

/-- Parsing inverts printing of lifecycle states. -/
theorem ShapeState.fromStr_toStr (st : ShapeState) : ShapeState.fromStr? st.toStr = some st := by
  cases st <;> rfl

/-- C1: on every known property key of every variant, `set_prop` with an
unparseable numeric value panics — `value.parse().unwrap()` aborts the
process (`none`) instead of producing a typed `InvalidNumber` error; for
unknown keys `set_prop` is a no-op. -/
theorem setProp_panics_on_parse_failure :
    (∀ (l : Line) (k : String), k ∈ lineKeys → l.setProp k none = none) ∧
    (∀ (l : Line) (k : String) (v : Option ℚ), k ∉ lineKeys → l.setProp k v = some l) ∧
    (∀ (r : Rectangle) (k : String), k ∈ rectangleKeys → r.setProp k none = none) ∧
    (∀ (r : Rectangle) (k : String) (v : Option ℚ), k ∉ rectangleKeys → r.setProp k v = some r) ∧
    (∀ (c : Circle) (k : String), k ∈ circleKeys → c.setProp k none = none) ∧
    (∀ (c : Circle) (k : String) (v : Option ℚ), k ∉ circleKeys → c.setProp k v = some c) := by
  refine ⟨?_, ?_, ?_, ?_, ?_, ?_⟩
  · intro l k hk
    fin_cases hk <;> rfl
  · intro l k v hk
    simp only [lineKeys, List.mem_cons, List.not_mem_nil, or_false, not_or] at hk
    obtain ⟨h1, h2, h3, h4⟩ := hk
    simp [Line.setProp, h1, h2, h3, h4]
  · intro r k hk
    fin_cases hk <;> rfl
  · intro r k v hk
    simp only [rectangleKeys, List.mem_cons, List.not_mem_nil, or_false, not_or] at hk
    obtain ⟨h1, h2, h3, h4⟩ := hk
    simp [Rectangle.setProp, h1, h2, h3, h4]
  · intro c k hk
    fin_cases hk <;> rfl
  · intro c k v hk
    simp only [circleKeys, List.mem_cons, List.not_mem_nil, or_false, not_or] at hk
    obtain ⟨h1, h2, h3⟩ := hk
    simp [Circle.setProp, h1, h2, h3]

/-- C1 witness: concrete instances of the panic and of the unknown-key
no-op. -/
theorem setProp_panics_on_parse_failure_witness :
    Line.setProp Line.new ORIGIN_X_KEY none = none ∧
    Line.setProp Line.new "Bogus" (some 1) = some Line.new ∧
    Circle.setProp Circle.new RADIUS_KEY none = none :=
  ⟨setProp_panics_on_parse_failure.1 Line.new ORIGIN_X_KEY (by decide),
   setProp_panics_on_parse_failure.2.1 Line.new "Bogus" (some 1) (by decide),
   setProp_panics_on_parse_failure.2.2.2.2.1 Circle.new RADIUS_KEY (by decide)⟩

/-- C1 counterexample: `set_prop` on a known key with an unparseable value is
a panic (`none`), not a reportable typed error. -/
theorem setProp_invalid_number_cex :
    Line.setProp Line.new ORIGIN_X_KEY none = none := rfl

/-- C2: when a document's `type` field is not one of line/rectangle/circle,
`deserialize_from_json` panics (process abort, `true` flag / `none` step), it
does not raise a recoverable typed failure. -/
theorem deserialize_unknown_kind_panics (s : ShapeStorage) (d : Doc) (rest : List Doc)
    (tstr : String) (ht : d.get "type" = some (JsonVal.str tstr))
    (hk : shapeTypeFromStr? tstr = none) :
    s.deserializeFromJson (d :: rest) = (s, true) ∧
    applyOp s (StorageOp.deserializeAll (d :: rest)) = none := by
  have h1 : s.deserializeFromJson (d :: rest) = (s, true) := by
    rw [ShapeStorage.deserializeFromJson, ht]
    dsimp only
    simp only [hk]
  exact ⟨h1, by simp [applyOp, h1]⟩

/-- C2 witness: the unknown-kind panic at a concrete document. -/
theorem deserialize_unknown_kind_panics_witness :
    ShapeStorage.init.deserializeFromJson [triangleDoc] = (ShapeStorage.init, true) ∧
    applyOp ShapeStorage.init (StorageOp.deserializeAll [triangleDoc]) = none :=
  deserialize_unknown_kind_panics ShapeStorage.init triangleDoc [] "triangle" rfl rfl

/-- C2 counterexample: deserializing `[well-formed circle, triangle]` panics,
and at the abort point the circle has already been pushed — the collection is
not left as it was, and no typed `UnknownShapeKind` failure is returned. -/
theorem deserialize_unknown_kind_cex :
    ShapeStorage.init.deserializeFromJson [circleDocA, triangleDoc] =
      (⟨[circleShapeA], 0, none, none⟩, true) ∧
    applyOp ShapeStorage.init (StorageOp.deserializeAll [circleDocA, triangleDoc]) = none := by
  constructor <;> rfl

/-- C3 (amended): wherever `get_json` succeeds, decoding a fresh shape from
the encoded document reproduces the original shape exactly (hence within any
tolerance): for every Line and Rectangle in every state, and for every Circle
whose origin is set. -/
theorem json_roundtrip :
    (∀ l : Line, Line.fromJson Line.new l.getJson = some l) ∧
    (∀ r : Rectangle, Rectangle.fromJson Rectangle.new r.getJson = some r) ∧
    (∀ c : Circle, c.origin.isSome = true →
      (c.getJson.bind fun d => Circle.fromJson Circle.new d) = some c) := by
  refine ⟨?_, ?_, ?_⟩
  · rintro ⟨origin, endPt, st⟩
    rcases origin with _ | ⟨ox, oy⟩ <;> rcases endPt with _ | ⟨ex, ey⟩ <;> cases st <;> rfl
  · rintro ⟨origin, w, h, st⟩
    rcases origin with _ | ⟨ox, oy⟩ <;> cases st <;> rfl
  · rintro ⟨origin, rad, st⟩ h
    rcases origin with _ | ⟨ox, oy⟩
    · simp at h
    · cases st <;> rfl

/-- C3 witness: round trip of a concrete circle in state Drawing. -/
theorem json_roundtrip_witness :
    ((⟨some (1, 2), 3, ShapeState.Drawing⟩ : Circle).getJson.bind
      fun d => Circle.fromJson Circle.new d) = some ⟨some (1, 2), 3, ShapeState.Drawing⟩ :=
  json_roundtrip.2.2 _ rfl

/-- C3 counterexample: a Circle in state New with no origin set — `to_json`
does not succeed, it panics on `self.origin.unwrap()`. -/
theorem circle_getJson_new_cex :
    Circle.new.state = ShapeState.New ∧ Circle.new.origin = none ∧
    Circle.getJson Circle.new = none := ⟨rfl, rfl, rfl⟩

/-- A circle used in the C4 resize counterexample. -/
def circleC4 : Circle := ⟨some (0, 0), 1, ShapeState.Complete⟩

/-- C4 (amended): for a circle with origin set, `resize(change, anchor)`
leaves origin and state unchanged and sets the radius to the magnitude of
`(origin − anchor) + change` (the source computes `ox - anchor.0 + change.0`,
not `anchor − origin + change`). -/
theorem circle_resize_characterization (c : Circle) (ox oy cx cy ax ay : ℚ)
    (h : c.origin = some (ox, oy)) (c' : Circle) :
    Circle.resizeSpec c (cx, cy) (ax, ay) c' ↔
      (c'.origin = some (ox, oy) ∧ c'.state = c.state ∧ 0 ≤ c'.radius ∧
        c'.radius ^ 2 = (ox - ax + cx) ^ 2 + (oy - ay + cy) ^ 2) := by
  simp [Circle.resizeSpec, h]

/-- C4 witness: the characterization at a concrete resize call. -/
theorem circle_resize_characterization_witness :
    Circle.resizeSpec circleC4 (5, 0) (10, 0) ⟨some (0, 0), 5, ShapeState.Complete⟩ :=
  (circle_resize_characterization circleC4 0 0 5 0 10 0 rfl _).mpr
    ⟨rfl, rfl, by norm_num, by norm_num⟩

/-- C4 counterexample: origin (0,0), anchor (10,0), change (5,0).  The code
yields radius 5 = |origin − anchor + change|, while the claimed value
|anchor − origin + change| is 15; the claimed radius is not the result. -/
theorem circle_resize_formula_cex :
    Circle.resizeSpec circleC4 (5, 0) (10, 0) ⟨some (0, 0), 5, ShapeState.Complete⟩ ∧
    ((10 : ℚ) - 0 + 5) ^ 2 + ((0 : ℚ) - 0 + 0) ^ 2 = 15 ^ 2 ∧
    ¬ Circle.resizeSpec circleC4 (5, 0) (10, 0) ⟨some (0, 0), 15, ShapeState.Complete⟩ := by
  refine ⟨⟨rfl, rfl, by norm_num, by norm_num⟩, by norm_num, ?_⟩
  intro hspec
  simp only [Circle.resizeSpec, circleC4] at hspec
  have h := hspec.2.2.2
  norm_num at h

/-- The serialization fold: on a nonempty document list it produces the
prefix, the comma-joined documents, and one trailing comma. -/
theorem serialize_foldl_eq (docs : List (List Char)) (d : List Char) :
    ∀ pre : List Char,
      ((d :: docs).foldl (fun acc dd => acc ++ dd ++ [',']) pre) =
        pre ++ specJoinComma (d :: docs) ++ [','] := by
  induction docs generalizing d with
  | nil => intro pre; simp [specJoinComma]
  | cons d2 rest ih =>
    intro pre
    have h3 : specJoinComma (d :: d2 :: rest) = d ++ [','] ++ specJoinComma (d2 :: rest) := rfl
    rw [List.foldl_cons, ih d2, h3]
    simp [List.append_assoc]

/-- C6 (amended): on every storage with at least one shape, the serialized
collection document is exactly one `[`, the per-shape documents joined by
commas in insertion order, and one `]`. -/
theorem serialize_nonempty_array (s : ShapeStorage) (enc : AnyShape → List Char)
    (h : s.shapes ≠ []) :
    s.serializeChars enc = specCollectionDoc (s.shapes.map enc) := by
  obtain ⟨sh, rest, hs⟩ : ∃ sh rest, s.shapes = sh :: rest := by
    cases hl : s.shapes with
    | nil => exact absurd hl h
    | cons a l => exact ⟨a, l, rfl⟩
  unfold ShapeStorage.serializeChars serializeDocsChars specCollectionDoc
  rw [hs, List.map_cons, serialize_foldl_eq, List.dropLast_concat]

/-- C6 witness: the serialized form of a one-shape storage. -/
theorem serialize_nonempty_array_witness :
    (ShapeStorage.mk [AnyShape.new ShapeType.Line] 0 none none).serializeChars
        (fun _ => ['x']) =
      specCollectionDoc
        ((ShapeStorage.mk [AnyShape.new ShapeType.Line] 0 none none).shapes.map
          (fun _ => ['x'])) :=
  serialize_nonempty_array _ _ (by simp)

/-- C6 counterexample: serializing the empty collection yields the single
character `]` — not the valid empty JSON array `[]` the spec's collection
document format prescribes (the `pop` removes the opening bracket). -/
theorem serialize_empty_cex :
    ShapeStorage.init.serializeChars (fun _ => []) = [']'] ∧
    specCollectionDoc [] = ['[', ']'] ∧
    ShapeStorage.init.serializeChars (fun _ => []) ≠ specCollectionDoc [] :=
  ⟨rfl, rfl, by decide⟩

/-- C7: for a line with both endpoints, in a drawable state, and with
distinct endpoints, the hit test succeeds exactly when the projection
parameter `t` lies in `[0,1]` and the squared perpendicular distance to the
projected point is at most `25` (i.e. distance at most 5). -/
theorem line_contains_projection (l : Line) (ox oy ex ey x y : ℚ)
    (ho : l.origin = some (ox, oy)) (he : l.endPt = some (ex, ey))
    (hs : l.state = ShapeState.Drawing ∨ l.state = ShapeState.Complete)
    (hnd : (ex - ox) * (ex - ox) + (ey - oy) * (ey - oy) ≠ 0) :
    (l.contains x y = some true ↔
      (0 ≤ ((x - ox) * (ex - ox) + (y - oy) * (ey - oy)) /
          ((ex - ox) * (ex - ox) + (ey - oy) * (ey - oy)) ∧
        ((x - ox) * (ex - ox) + (y - oy) * (ey - oy)) /
          ((ex - ox) * (ex - ox) + (ey - oy) * (ey - oy)) ≤ 1 ∧
        (x - (ox + ((x - ox) * (ex - ox) + (y - oy) * (ey - oy)) /
            ((ex - ox) * (ex - ox) + (ey - oy) * (ey - oy)) * (ex - ox))) *
          (x - (ox + ((x - ox) * (ex - ox) + (y - oy) * (ey - oy)) /
            ((ex - ox) * (ex - ox) + (ey - oy) * (ey - oy)) * (ex - ox))) +
        (y - (oy + ((x - ox) * (ex - ox) + (y - oy) * (ey - oy)) /
            ((ex - ox) * (ex - ox) + (ey - oy) * (ey - oy)) * (ey - oy))) *
          (y - (oy + ((x - ox) * (ex - ox) + (y - oy) * (ey - oy)) /
            ((ex - ox) * (ex - ox) + (ey - oy) * (ey - oy)) * (ey - oy))) ≤ 25)) := by
  have hd : l.isDrawable = true := by
    simp only [Line.isDrawable, he, decide_eq_true_eq, Option.isSome_some, and_true]
    exact hs.elim Or.inr Or.inl
  set t := ((x - ox) * (ex - ox) + (y - oy) * (ey - oy)) /
    ((ex - ox) * (ex - ox) + (ey - oy) * (ey - oy)) with htdef
  simp only [Line.contains, ho, he, hd]
  rw [if_neg (by simp)]
  rw [if_neg hnd]
  by_cases hrange : t < 0 ∨ t > 1
  · rw [if_pos hrange]
    constructor
    · intro hfalse
      exact absurd (Option.some.inj hfalse) (by simp)
    · rintro ⟨h1, h2, -⟩
      rcases hrange with hr | hr <;> linarith
  · rw [if_neg hrange]
    push_neg at hrange
    simp only [Option.some.injEq, decide_eq_true_eq]
    constructor
    · intro hle
      exact ⟨hrange.1, hrange.2, hle⟩
    · rintro ⟨-, -, hle⟩
      exact hle

/-- A line used for the C7 witness (the spec's worked example). -/
def lineC7 : Line := ⟨some (0, 0), some (100, 0), ShapeState.Complete⟩

/-- C7 witness: the spec's concrete hit tests on the segment (0,0)-(100,0). -/
theorem line_contains_projection_witness :
    Line.contains lineC7 50 3 = some true ∧
    Line.contains lineC7 50 10 = some false ∧
    Line.contains lineC7 (-5) 0 = some false := by
  refine ⟨?_, by norm_num [Line.contains, lineC7, Line.isDrawable],
    by norm_num [Line.contains, lineC7, Line.isDrawable]⟩
  rw [line_contains_projection lineC7 0 0 100 0 50 3 rfl rfl (Or.inr rfl) (by norm_num)]
  norm_num

/-- C9: `Circle::contains` ignores the lifecycle state and drawability: with
an origin set it holds exactly when the squared distance to the origin is at
most the squared (nonnegative) radius; a radius-0 circle contains exactly its
origin; `Line`/`Rectangle` `contains` return false whenever not drawable; and
`intersect_and_highlight` matches a Drawing radius-0 circle (which is not
drawable) at its origin. -/
theorem circle_contains_ignores_drawability :
    (∀ (c : Circle) (st : ShapeState) (x y : ℚ),
      Circle.contains { c with state := st } x y = Circle.contains c x y) ∧
    (∀ (c : Circle) (ox oy x y : ℚ), c.origin = some (ox, oy) →
      (Circle.contains c x y = true ↔
        0 ≤ c.radius ∧ (ox - x) * (ox - x) + (oy - y) * (oy - y) ≤ c.radius * c.radius)) ∧
    (∀ (ox oy x y : ℚ) (st : ShapeState),
      (Circle.contains ⟨some (ox, oy), 0, st⟩ x y = true ↔ (x = ox ∧ y = oy))) ∧
    (∀ (l : Line) (x y : ℚ), l.isDrawable = false → l.contains x y = some false) ∧
    (∀ (r : Rectangle) (x y : ℚ), r.isDrawable = false → r.contains x y = some false) ∧
    (∀ (ox oy : ℚ) (st : ShapeState),
      (st = ShapeState.Drawing → Circle.isDrawable ⟨some (ox, oy), 0, st⟩ = false)) ∧
    (∀ (a b : ℚ),
      ShapeStorage.intersectAndHighlight
          ⟨[AnyShape.circle ⟨some (a, b), 0, ShapeState.Drawing⟩], 0, none, none⟩ a b =
        some (⟨[AnyShape.circle ⟨some (a, b), 0, ShapeState.Drawing⟩], 0, some 0, none⟩,
          some 0)) := by
  refine ⟨?_, ?_, ?_, ?_, ?_, ?_, ?_⟩
  · intro c st x y; rfl
  · intro c ox oy x y h
    simp [Circle.contains, h]
  · intro ox oy x y st
    simp only [Circle.contains, decide_eq_true_eq]
    constructor
    · rintro ⟨-, hle⟩
      have hx : (ox - x) * (ox - x) = 0 ∧ (oy - y) * (oy - y) = 0 := by
        constructor <;> nlinarith [mul_self_nonneg (ox - x), mul_self_nonneg (oy - y)]
      constructor
      · have := mul_self_eq_zero.mp hx.1; linarith
      · have := mul_self_eq_zero.mp hx.2; linarith
    · rintro ⟨hx, hy⟩
      subst hx; subst hy
      norm_num
  · intro l x y h
    simp [Line.contains, h]
  · intro r x y h
    simp [Rectangle.contains, h]
  · intro ox oy st hst
    subst hst
    simp [Circle.isDrawable]
  · intro a b
    simp [ShapeStorage.intersectAndHighlight, findContainsFrom, AnyShape.contains,
      Circle.contains]

/-- C9 witness: the spec's circle boundary example, origin (100,100) and
radius 50: the point (140,100) at distance 40 is contained. -/
theorem circle_contains_ignores_drawability_witness :
    Circle.contains ⟨some (100, 100), 50, ShapeState.Complete⟩ 140 100 = true :=
  (circle_contains_ignores_drawability.2.1 _ 100 100 140 100 rfl).mpr (by norm_num)

/-- A line reaching the drawable-without-origin state through the public
interface: `set_state(Drawing)` followed by `set_end`. -/
def lineNoOrigin : Line := (Line.new.setState ShapeState.Drawing).setEnd 1 0

/-- C10 counterexample: a Line built by `setState` then `setEnd` without an
origin passes the drawability guard, yet `contains` panics (`none`) on
`self.origin.unwrap()` — the claimed totality fails. -/
theorem line_contains_no_origin_cex :
    lineNoOrigin.isDrawable = true ∧ Line.contains lineNoOrigin 0 0 = none :=
  ⟨rfl, rfl⟩

/-- C10 (amended): `Line::contains` evaluates totally on every line
satisfying the origin invariant — whenever the drawability guard can pass
only with an origin present (as in the add_point-driven flow); lines reached
by `setState`+`setEnd` without an origin violate that invariant and panic. -/
theorem line_contains_total_under_origin_invariant (l : Line) (x y : ℚ)
    (h : l.isDrawable = true → l.origin.isSome = true) :
    (l.contains x y).isSome = true := by
  cases hd : l.isDrawable with
  | false => simp [Line.contains, hd]
  | true =>
    rcases Option.isSome_iff_exists.mp (h hd) with ⟨⟨ox, oy⟩, ho⟩
    have he : l.endPt.isSome = true := by
      have hd2 := hd
      simp only [Line.isDrawable, decide_eq_true_eq] at hd2
      exact hd2.2
    rcases Option.isSome_iff_exists.mp he with ⟨⟨ex, ey⟩, hee⟩
    simp only [Line.contains, hd, ho, hee]
    rw [if_neg (by simp)]
    split
    · simp
    · split <;> simp

/-- C10 witness: totality at a well-formed concrete line. -/
theorem line_contains_total_witness :
    ((⟨some (0, 0), some (100, 0), ShapeState.Complete⟩ : Line).contains 50 3).isSome = true :=
  line_contains_total_under_origin_invariant _ 50 3 (fun _ => rfl)

/-- C5 (amended): when the shape at the current index exists and has a kind
different from the requested one, `get_or_create_shape` appends a new shape
and sets `current` to `old current + 1`, returning the handle at that index —
which is the newly appended last shape exactly when `current` was the last
index before the call; after `deserialize` the current index can lag behind
and the returned handle is an older shape. -/
theorem getOrCreate_kind_differs (s : ShapeStorage) (t : ShapeType) (sh : AnyShape)
    (hget : s.shapes.get? s.currentShapeIdx = some sh) (hne : sh.shapeType ≠ t) :
    s.getOrCreateShape t =
      some ({ s with currentShapeIdx := s.currentShapeIdx + 1,
                     shapes := s.shapes ++ [AnyShape.new t] }, s.currentShapeIdx + 1) ∧
    (s.currentShapeIdx = s.shapes.length - 1 →
      (s.currentShapeIdx + 1 = (s.shapes ++ [AnyShape.new t]).length - 1 ∧
        (s.shapes ++ [AnyShape.new t]).get? (s.currentShapeIdx + 1) =
          some (AnyShape.new t))) := by
  have hlt : s.currentShapeIdx < s.shapes.length := List.get?_eq_some.mp hget |>.1
  have hne' : s.shapes ≠ [] := by
    intro hnil
    rw [hnil] at hlt
    simp at hlt
  constructor
  · unfold ShapeStorage.getOrCreateShape
    rw [if_neg (by simpa using hne')]
    rw [hget]
    dsimp only
    rw [if_pos hne]
    simp only [ShapeStorage.createShape]
    have hgetnew : (s.shapes ++ [AnyShape.new t]).get? (s.currentShapeIdx + 1) ≠ none := by
      intro hnone
      have hlen := List.get?_eq_none.mp hnone
      simp only [List.length_append, List.length_singleton] at hlen
      omega
    cases hcase : (s.shapes ++ [AnyShape.new t]).get? (s.currentShapeIdx + 1) with
    | none => exact absurd hcase hgetnew
    | some sh2 => rfl
  · intro hcur
    constructor
    · simp only [List.length_append, List.length_singleton]
      omega
    · have : s.currentShapeIdx + 1 = s.shapes.length := by omega
      rw [this, List.get?_concat_length]

/-- The storage obtained by deserializing two well-formed circle documents
into the empty storage: two shapes, current index still 0. -/
def storageC5 : ShapeStorage := ⟨[circleShapeA, circleShapeA], 0, none, none⟩

/-- The storage after then requesting a Line via `get_or_create_shape`. -/
def storageC5' : ShapeStorage :=
  ⟨[circleShapeA, circleShapeA, AnyShape.new ShapeType.Line], 1, none, none⟩

/-- C5 counterexample: after `deserialize` of two circles (current = 0,
length 2), `get_or_create_shape(Line)` appends the line but sets current to
1 ≠ 2 = length − 1 and returns the handle at index 1 — an old circle, not
the newly appended last shape. -/
theorem getOrCreate_after_deserialize_cex :
    runOps [StorageOp.deserializeAll [circleDocA, circleDocA]] = some storageC5 ∧
    ShapeStorage.getOrCreateShape storageC5 ShapeType.Line = some (storageC5', 1) ∧
    storageC5'.shapes.length = 3 ∧
    storageC5'.currentShapeIdx = 1 ∧
    storageC5'.currentShapeIdx ≠ storageC5'.shapes.length - 1 ∧
    storageC5'.shapes.get? storageC5'.currentShapeIdx = some circleShapeA ∧
    circleShapeA.shapeType ≠ ShapeType.Line :=
  ⟨rfl, rfl, rfl, rfl, by decide, rfl, by decide⟩

/-- C5 witness: the amended statement at a storage whose current index is the
last index — there the appended shape is indeed returned. -/
theorem getOrCreate_kind_differs_witness :
    ShapeStorage.getOrCreateShape ⟨[circleShapeA], 0, none, none⟩ ShapeType.Line =
      some (⟨[circleShapeA, AnyShape.new ShapeType.Line], 1, none, none⟩, 1) ∧
    (⟨[circleShapeA], 0, none, none⟩ : ShapeStorage).shapes.get? 0 = some circleShapeA :=
  ⟨(getOrCreate_kind_differs ⟨[circleShapeA], 0, none, none⟩ ShapeType.Line circleShapeA
      rfl (by decide)).1, rfl⟩

/-- The first-match scan only returns indices below the length of the
scanned list (shifted by the running counter). -/
theorem findContainsFrom_some_lt (shapes : List AnyShape) (x y : ℚ) :
    ∀ k i : Nat, findContainsFrom shapes x y k = some (some i) → i < k + shapes.length := by
  induction shapes with
  | nil => intro k i h; simp [findContainsFrom] at h
  | cons sh rest ih =>
    intro k i h
    rw [findContainsFrom] at h
    cases hc : sh.contains x y with
    | none => rw [hc] at h; simp at h
    | some b =>
      rw [hc] at h
      cases b with
      | true =>
        simp only [Option.some.injEq] at h
        simp only [List.length_cons]
        omega
      | false =>
        have := ih (k + 1) i (by simpa using h)
        simp only [List.length_cons]
        omega

/-- A successful `deserialize_from_json` only appends shapes and leaves all
three cursors unchanged. -/
theorem deserialize_ok_fields (docs : List Doc) :
    ∀ s s' : ShapeStorage, s.deserializeFromJson docs = (s', false) →
      (∃ newShapes, s'.shapes = s.shapes ++ newShapes) ∧
      s'.currentShapeIdx = s.currentShapeIdx ∧
      s'.highlightedShapeIdx = s.highlightedShapeIdx ∧
      s'.selectedShapeIdx = s.selectedShapeIdx := by
  induction docs with
  | nil =>
    intro s s' h
    rw [ShapeStorage.deserializeFromJson] at h
    obtain rfl : s = s' := congrArg Prod.fst h
    exact ⟨⟨[], by simp⟩, rfl, rfl, rfl⟩
  | cons d rest ih =>
    intro s s' h
    rw [ShapeStorage.deserializeFromJson] at h
    cases hd : d.get "type" with
    | none => rw [hd] at h; simp at h
    | some v =>
      rw [hd] at h
      cases v with
      | num q => simp at h
      | arr a => simp at h
      | str tstr =>
        dsimp only at h
        cases hty : shapeTypeFromStr? tstr with
        | none => rw [hty] at h; simp at h
        | some ty =>
          rw [hty] at h
          dsimp only at h
          cases hfj : (AnyShape.new ty).fromJson d with
          | none => rw [hfj] at h; simp at h
          | some sh =>
            rw [hfj] at h
            dsimp only at h
            obtain ⟨⟨ns, hns⟩, hc, hh, hsel⟩ := ih _ _ h
            refine ⟨⟨sh :: ns, ?_⟩, hc, hh, hsel⟩
            rw [hns]
            simp

/-- Case analysis of a successful `get_or_create_shape`: either the empty
append, the kind-differs/Complete append (current incremented), or the
continue-current case (selected set to current). -/
theorem getOrCreateShape_cases {s : ShapeStorage} {t : ShapeType} {s1 : ShapeStorage}
    {idx : Nat} (h : s.getOrCreateShape t = some (s1, idx)) :
    (s1 = { s with shapes := s.shapes ++ [AnyShape.new t] } ∧ s.shapes = []) ∨
    (s1 = { s with currentShapeIdx := s.currentShapeIdx + 1,
                   shapes := s.shapes ++ [AnyShape.new t] } ∧
      s.currentShapeIdx < s.shapes.length) ∨
    (s1 = { s with selectedShapeIdx := some s.currentShapeIdx } ∧
      s.currentShapeIdx < s.shapes.length) := by
  unfold ShapeStorage.getOrCreateShape at h
  by_cases hemp : s.shapes.isEmpty
  · rw [if_pos hemp] at h
    dsimp only at h
    cases hget : ({ s with shapes := s.shapes ++ [AnyShape.new t] } :
        ShapeStorage).shapes.get? s.currentShapeIdx with
    | none => rw [hget] at h; simp at h
    | some sh =>
      rw [hget] at h
      simp only [Option.some.injEq, Prod.mk.injEq] at h
      exact Or.inl ⟨h.1.symm, List.isEmpty_iff.mp hemp⟩
  · rw [if_neg hemp] at h
    cases hget : s.shapes.get? s.currentShapeIdx with
    | none => rw [hget] at h; simp at h
    | some sh =>
      rw [hget] at h
      dsimp only at h
      have hlt : s.currentShapeIdx < s.shapes.length := (List.get?_eq_some.mp hget).1
      by_cases hne : sh.shapeType ≠ t
      · rw [if_pos hne] at h
        unfold ShapeStorage.createShape at h
        dsimp only at h
        cases hget2 : (s.shapes ++ [AnyShape.new t]).get? (s.currentShapeIdx + 1) with
        | none => rw [hget2] at h; simp at h
        | some sh2 =>
          rw [hget2] at h
          simp only [Option.some.injEq, Prod.mk.injEq] at h
          exact Or.inr (Or.inl ⟨h.1.symm, hlt⟩)
      · rw [if_neg hne] at h
        cases hst : sh.getState with
        | Complete =>
          rw [hst] at h
          unfold ShapeStorage.createShape at h
          dsimp only at h
          cases hget2 : (s.shapes ++ [AnyShape.new t]).get? (s.currentShapeIdx + 1) with
          | none => rw [hget2] at h; simp at h
          | some sh2 =>
            rw [hget2] at h
            simp only [Option.some.injEq, Prod.mk.injEq] at h
            exact Or.inr (Or.inl ⟨h.1.symm, hlt⟩)
        | New =>
          rw [hst] at h
          simp only [Option.some.injEq, Prod.mk.injEq] at h
          exact Or.inr (Or.inr ⟨h.1.symm, hlt⟩)
        | Drawing =>
          rw [hst] at h
          simp only [Option.some.injEq, Prod.mk.injEq] at h
          exact Or.inr (Or.inr ⟨h.1.symm, hlt⟩)

/-- Every public collection operation preserves the cursor invariant. -/
theorem applyOp_inv {s s' : ShapeStorage} (op : StorageOp) (hinv : storageInv s)
    (h : applyOp s op = some s') : storageInv s' := by
  obtain ⟨h1, h2, h3, h4⟩ := hinv
  cases op with
  | getOrCreate t =>
    simp only [applyOp, Option.map_eq_some'] at h
    obtain ⟨⟨s1, idx⟩, hg, hfst⟩ := h
    obtain rfl : s1 = s' := hfst
    rcases getOrCreateShape_cases hg with ⟨rfl, hemp⟩ | ⟨rfl, hlt⟩ | ⟨rfl, hlt⟩
    · refine ⟨?_, ?_, ?_, ?_⟩
      · intro i hi
        have := h1 i hi
        simp only [hemp] at this
        simp at this
      · intro i hi
        have := h2 i hi
        simp only [hemp] at this
        simp at this
      · intro hlen
        simp [hemp] at hlen
      · intro _
        have hc := h3 (by simp [hemp])
        simp only [hemp, hc, List.length_append]
        simp
    · refine ⟨?_, ?_, ?_, ?_⟩
      · intro i hi
        have := h1 i hi
        simp only [List.length_append, List.length_singleton]
        omega
      · intro i hi
        have := h2 i hi
        simp only [List.length_append, List.length_singleton]
        omega
      · intro hlen
        simp only [List.length_append, List.length_singleton] at hlen
        omega
      · intro _
        simp only [List.length_append, List.length_singleton]
        omega
    · refine ⟨fun i hi => h1 i hi, ?_, h3, h4⟩
      intro i hi
      have hcur : s.currentShapeIdx = i := by simpa using hi
      show i < s.shapes.length
      omega
  | newShape t =>
    simp only [applyOp, Option.some.injEq] at h
    subst h
    refine ⟨?_, ?_, ?_, ?_⟩
    · intro i hi
      simp [ShapeStorage.newShape] at hi
    · intro i hi
      simp only [ShapeStorage.newShape, Option.some.injEq, List.length_append,
        List.length_singleton] at hi
      simp only [ShapeStorage.newShape, List.length_append, List.length_singleton]
      omega
    · intro hlen
      simp only [ShapeStorage.newShape, List.length_append, List.length_singleton] at hlen
      omega
    · intro _
      simp only [ShapeStorage.newShape, List.length_append, List.length_singleton]
      omega
  | submitShape =>
    simp only [applyOp] at h
    unfold ShapeStorage.submitShape at h
    cases hsel : s.selectedShapeIdx with
    | none =>
      rw [hsel] at h
      obtain rfl : s = s' := Option.some.inj h
      exact ⟨h1, h2, h3, h4⟩
    | some idx =>
      rw [hsel] at h
      dsimp only at h
      cases hget : s.shapes.get? idx with
      | none => rw [hget] at h; simp at h
      | some sh =>
        rw [hget] at h
        dsimp only at h
        by_cases hcond : (sh.getEnd.isSome && sh.getOrigin.isSome) = true
        · rw [if_pos hcond] at h
          obtain rfl := Option.some.inj h
          refine ⟨?_, ?_, ?_, ?_⟩
          · intro i hi
            have hlt := h1 i hi
            simpa using hlt
          · intro i hi
            have hidx : idx = i := by simpa using hi
            subst hidx
            have hlt := h2 idx hsel
            simpa using hlt
          · intro hlen
            simp only [List.length_set] at hlen
            exact h3 hlen
          · intro hlen
            simp only [List.length_set] at hlen
            have hlt := h4 hlen
            simpa using hlt
        · rw [if_neg hcond] at h
          obtain rfl : s = s' := Option.some.inj h
          exact ⟨h1, h2, h3, h4⟩
  | intersectHighlight x y =>
    simp only [applyOp, Option.map_eq_some'] at h
    obtain ⟨⟨s1, r⟩, hg, hfst⟩ := h
    obtain rfl : s1 = s' := hfst
    unfold ShapeStorage.intersectAndHighlight at hg
    cases hf : findContainsFrom s.shapes x y 0 with
    | none => rw [hf] at hg; simp at hg
    | some o =>
      rw [hf] at hg
      cases o with
      | none =>
        simp only [Option.some.injEq, Prod.mk.injEq] at hg
        obtain rfl := hg.1.symm
        exact ⟨fun i hi => by simp at hi, h2, h3, h4⟩
      | some i =>
        have hib := findContainsFrom_some_lt s.shapes x y 0 i hf
        simp only [Option.some.injEq, Prod.mk.injEq] at hg
        obtain rfl := hg.1.symm
        refine ⟨?_, h2, h3, h4⟩
        intro j hj
        have hij : i = j := by simpa using hj
        show j < s.shapes.length
        omega
  | intersectSelect x y =>
    simp only [applyOp, Option.map_eq_some'] at h
    obtain ⟨⟨s1, r⟩, hg, hfst⟩ := h
    obtain rfl : s1 = s' := hfst
    unfold ShapeStorage.intersectAndSelect at hg
    cases hf : findContainsFrom s.shapes x y 0 with
    | none => rw [hf] at hg; simp at hg
    | some o =>
      rw [hf] at hg
      cases o with
      | none =>
        simp only [Option.some.injEq, Prod.mk.injEq] at hg
        obtain rfl := hg.1.symm
        exact ⟨h1, fun i hi => by simp at hi, h3, h4⟩
      | some i =>
        have hib := findContainsFrom_some_lt s.shapes x y 0 i hf
        simp only [Option.some.injEq, Prod.mk.injEq] at hg
        obtain rfl := hg.1.symm
        refine ⟨h1, ?_, h3, h4⟩
        intro j hj
        have hij : i = j := by simpa using hj
        show j < s.shapes.length
        omega
  | clear =>
    simp only [applyOp, Option.some.injEq] at h
    subst h
    exact ⟨fun i hi => by simp [ShapeStorage.clear] at hi,
      fun i hi => by simp [ShapeStorage.clear] at hi,
      fun _ => rfl, fun hh => by simp [ShapeStorage.clear] at hh⟩
  | serializeAll =>
    simp only [applyOp] at h
    by_cases hc : s.shapes.all (fun sh => sh.getJson.isSome) = true
    · rw [if_pos hc] at h
      obtain rfl : s = s' := Option.some.inj h
      exact ⟨h1, h2, h3, h4⟩
    · rw [if_neg hc] at h
      simp at h
  | deserializeAll docs =>
    simp only [applyOp] at h
    cases hdes : s.deserializeFromJson docs with
    | mk s1 flag =>
      rw [hdes] at h
      cases flag with
      | true => simp at h
      | false =>
        obtain rfl : s1 = s' := Option.some.inj h
        obtain ⟨⟨ns, hns⟩, hc, hh, hsel⟩ := deserialize_ok_fields docs s s1 hdes
        have hlen : s1.shapes.length = s.shapes.length + ns.length := by
          rw [hns]; simp
        refine ⟨?_, ?_, ?_, ?_⟩
        · intro i hi
          have := h1 i (hh ▸ hi)
          omega
        · intro i hi
          have := h2 i (hsel ▸ hi)
          omega
        · intro hl
          rw [hc]
          exact h3 (by omega)
        · intro hl
          rw [hc]
          by_cases hsl : s.shapes.length = 0
          · have := h3 hsl
            omega
          · have := h4 (by omega)
            omega

/-- Running any operation sequence from an invariant-satisfying storage
preserves the invariant. -/
theorem runOpsFrom_inv {ops : List StorageOp} :
    ∀ {s s' : ShapeStorage}, storageInv s → runOpsFrom s ops = some s' → storageInv s' := by
  induction ops with
  | nil =>
    intro s s' hinv h
    rw [runOpsFrom] at h
    obtain rfl : s = s' := Option.some.inj h
    exact hinv
  | cons op rest ih =>
    intro s s' hinv h
    rw [runOpsFrom] at h
    cases ha : applyOp s op with
    | none => rw [ha] at h; simp at h
    | some s1 =>
      rw [ha] at h
      exact ih (applyOp_inv op hinv ha) h

/-- Under the cursor invariant the three indexed accessors never hit an
out-of-range index, and report absence when no index is set or the sequence
is empty. -/
theorem storageInv_accessors {s : ShapeStorage} (hinv : storageInv s) :
    s.getSelected.isSome = true ∧ s.getHighlighted.isSome = true ∧
    s.getCurrent.isSome = true ∧
    (s.selectedShapeIdx = none → s.getSelected = some none) ∧
    (s.highlightedShapeIdx = none → s.getHighlighted = some none) ∧
    (s.shapes = [] → s.getCurrent = some none) := by
  obtain ⟨h1, h2, h3, h4⟩ := hinv
  refine ⟨?_, ?_, ?_, ?_, ?_, ?_⟩
  · unfold ShapeStorage.getSelected
    cases hsel : s.selectedShapeIdx with
    | none => rfl
    | some i =>
      have hlt := h2 i hsel
      dsimp only
      cases hget : s.shapes.get? i with
      | none =>
        have := List.get?_eq_none.mp hget
        omega
      | some sh => simp [hget]
  · unfold ShapeStorage.getHighlighted
    cases hsel : s.highlightedShapeIdx with
    | none => rfl
    | some i =>
      have hlt := h1 i hsel
      dsimp only
      cases hget : s.shapes.get? i with
      | none =>
        have := List.get?_eq_none.mp hget
        omega
      | some sh => simp [hget]
  · unfold ShapeStorage.getCurrent
    by_cases hemp : s.shapes.isEmpty
    · rw [if_pos hemp]
      rfl
    · rw [if_neg hemp]
      have hlen : 0 < s.shapes.length := by
        cases hl : s.shapes with
        | nil => rw [hl] at hemp; simp at hemp
        | cons a l => simp [hl]
      have hlt := h4 hlen
      cases hget : s.shapes.get? s.currentShapeIdx with
      | none =>
        have := List.get?_eq_none.mp hget
        omega
      | some sh => simp [hget]
  · intro hsel
    unfold ShapeStorage.getSelected
    rw [hsel]
  · intro hsel
    unfold ShapeStorage.getHighlighted
    rw [hsel]
  · intro hemp
    unfold ShapeStorage.getCurrent
    rw [if_pos (by simp [hemp])]

/-- C8: after every sequence of public collection operations run from the
initial storage, every set index references a valid position strictly below
the sequence length (and current is in range on a nonempty sequence), and
the indexed accessors `get_selected` / `get_highlighted` / `get_current_mut`
never fault out of range and report absence when no index is set or the
sequence is empty. -/
theorem storage_indices_always_valid (ops : List StorageOp) (s' : ShapeStorage)
    (h : runOps ops = some s') :
    storageInv s' ∧ s'.getSelected.isSome = true ∧ s'.getHighlighted.isSome = true ∧
    s'.getCurrent.isSome = true ∧
    (s'.selectedShapeIdx = none → s'.getSelected = some none) ∧
    (s'.highlightedShapeIdx = none → s'.getHighlighted = some none) ∧
    (s'.shapes = [] → s'.getCurrent = some none) := by
  have hinit : storageInv ShapeStorage.init :=
    ⟨fun i hi => by simp [ShapeStorage.init] at hi,
     fun i hi => by simp [ShapeStorage.init] at hi,
     fun _ => rfl,
     fun hh => by simp [ShapeStorage.init] at hh⟩
  have hinv := runOpsFrom_inv hinit h
  obtain ⟨a1, a2, a3, a4, a5, a6⟩ := storageInv_accessors hinv
  exact ⟨hinv, a1, a2, a3, a4, a5, a6⟩

/-- The storage reached by `new_shape(Line)` then a missed hover hit test. -/
def storageC8 : ShapeStorage := ⟨[AnyShape.new ShapeType.Line], 0, none, some 0⟩

/-- C8 witness: the index/accessor guarantees at the storage reached by a
concrete operation sequence. -/
theorem storage_indices_always_valid_witness :
    storageInv storageC8 ∧ storageC8.getSelected.isSome = true ∧
    storageC8.getHighlighted.isSome = true ∧ storageC8.getCurrent.isSome = true ∧
    (storageC8.selectedShapeIdx = none → storageC8.getSelected = some none) ∧
    (storageC8.highlightedShapeIdx = none → storageC8.getHighlighted = some none) ∧
    (storageC8.shapes = [] → storageC8.getCurrent = some none) :=
  storage_indices_always_valid
    [StorageOp.newShape ShapeType.Line, StorageOp.intersectHighlight 0 0] storageC8 rfl

end GK
